import Mathlib

/-!
Verification development for the Percify avatar co-pilot backend
(`src/server.ts`, `src/tools.ts`).

The Profile/Memory Store and the Context Assembler are embedded as pure
Lean functions.  Effects of the source are made explicit:

* `generateId()` and `new Date().toISOString()` are impure in the source;
  here every operation that calls them takes the fresh id / timestamp as
  an explicit argument.
* `this.state` / `this.setState` become explicit `AgentState` passing.
* JavaScript `||` on optionals is modelled by `jsOrStr` / `jsOrTone` /
  `jsOrList` (note: in JavaScript the empty string is falsy while the
  empty array is truthy; the three combinators reflect that).
-/

namespace Percify

/-- The tone enumeration of `AvatarProfile` (`server.ts` line 29). -/
inductive Tone where
  | casual
  | professional
  | playful
  | technical
deriving DecidableEq, Repr

/-- The string form of a tone, as it appears in the TypeScript union type. -/
def Tone.toStr : Tone → String
  | .casual => "casual"
  | .professional => "professional"
  | .playful => "playful"
  | .technical => "technical"

/-- The memory-type enumeration of `MemoryItem` (`server.ts` line 39). -/
inductive MemType where
  | task
  | preference
  | note
deriving DecidableEq, Repr

/-- The string form of a memory type. -/
def MemType.toStr : MemType → String
  | .task => "task"
  | .preference => "preference"
  | .note => "note"

/-- `AvatarProfile` (`server.ts` lines 25-31). -/
structure AvatarProfile where
  id : String
  displayName : String
  bio : String
  tone : Tone
  expertiseTags : List String
deriving DecidableEq, Repr

/-- `MemoryItem` (`server.ts` lines 36-41). -/
structure MemoryItem where
  id : String
  createdAt : String
  type : MemType
  content : String
deriving DecidableEq, Repr

/-- `AgentState` (`server.ts` lines 46-49): `avatar?` becomes an `Option`. -/
structure AgentState where
  avatar : Option AvatarProfile
  memories : List MemoryItem
deriving DecidableEq, Repr

/-- The `initialState` of the agent (`server.ts` lines 82-85). -/
def initialAgentState : AgentState := { avatar := none, memories := [] }

/-- JavaScript `array.slice(-k)`: the last `k` elements (the whole list when
it is shorter than `k`). -/
def sliceLast (k : Nat) (l : List α) : List α := l.drop (l.length - k)

/-- JavaScript `a || b` for an optional string `a`: the empty string is
falsy, so it falls through to `b`. -/
def jsOrStr (a : Option String) (b : String) : String :=
  match a with
  | some s => if s = "" then b else s
  | none => b

/-- JavaScript `a || b` for an optional tone: every tone's string form is
non-empty, hence truthy, so a present tone is always taken. -/
def jsOrTone (a : Option Tone) (b : Tone) : Tone := a.getD b

/-- JavaScript `a || b` for an optional array: every array, the empty one
included, is truthy, so a present array is always taken. -/
def jsOrList (a : Option (List String)) (b : List String) : List String := a.getD b

/-- The partial profile accepted by `saveAvatarProfile`
(`Partial<AvatarProfile>` restricted to the four fields the tool passes,
`tools.ts` lines 43-48). -/
structure ProfileInput where
  displayName : Option String
  bio : Option String
  tone : Option Tone
  expertiseTags : Option (List String)
deriving DecidableEq, Repr

/-- The profile input with every field absent. -/
def ProfileInput.empty : ProfileInput :=
  { displayName := none, bio := none, tone := none, expertiseTags := none }

/-- The merged avatar built by `saveAvatarProfile` (`server.ts` lines
129-135); `freshId` stands for the `generateId()` call. -/
def mergeAvatar (freshId : String) (profileInput : ProfileInput)
    (currentAvatar : Option AvatarProfile) : AvatarProfile :=
  { id := jsOrStr (currentAvatar.map (·.id)) freshId
    displayName :=
      jsOrStr profileInput.displayName
        (jsOrStr (currentAvatar.map (·.displayName)) "Unnamed Avatar")
    bio := jsOrStr profileInput.bio (jsOrStr (currentAvatar.map (·.bio)) "")
    tone := jsOrTone profileInput.tone (jsOrTone (currentAvatar.map (·.tone)) .casual)
    expertiseTags :=
      jsOrList profileInput.expertiseTags
        (jsOrList (currentAvatar.map (·.expertiseTags)) []) }

/-- `saveAvatarProfile` (`server.ts` lines 125-144): merges the partial
input over the stored avatar and replaces it, returning the full profile
together with the new state. -/
def saveAvatarProfile (freshId : String) (profileInput : ProfileInput)
    (s : AgentState) : AvatarProfile × AgentState :=
  let updatedAvatar := mergeAvatar freshId profileInput s.avatar
  (updatedAvatar, { s with avatar := some updatedAvatar })

/-- `saveMemory` (`server.ts` lines 149-174): appends a fresh item, trims
the log to the last 50 entries when it exceeds 50, stores the result and
returns the last 5 entries.  `freshId` and `now` stand for `generateId()`
and `new Date().toISOString()`. -/
def saveMemory (freshId now : String) (type : MemType) (content : String)
    (s : AgentState) : AgentState × List MemoryItem :=
  let newMemory : MemoryItem :=
    { id := freshId, createdAt := now, type := type, content := content }
  let updatedMemories := s.memories ++ [newMemory]
  let updatedMemories :=
    if updatedMemories.length > 50 then sliceLast 50 updatedMemories
    else updatedMemories
  ({ s with memories := updatedMemories }, sliceLast 5 updatedMemories)

/-- `getAvatarState` (`server.ts` lines 115-120): the external snapshot,
the avatar plus the last 5 memories. -/
def getAvatarState (s : AgentState) : AgentState :=
  { avatar := s.avatar, memories := sliceLast 5 s.memories }

/-- Model of the host's `new Date(iso).toLocaleDateString()` in the worker
runtime (en-US locale, UTC): an ISO-8601 `YYYY-MM-DD...` timestamp renders
as `M/D/YYYY` without leading zeros; anything else is an invalid date.
Deterministic in its argument, which is all the development relies on. -/
def toLocaleDateString (createdAt : String) : String :=
  let dropZero : Char → Char → String := fun a b =>
    if a = '0' then String.mk [b] else String.mk [a, b]
  match createdAt.toList with
  | y1 :: y2 :: y3 :: y4 :: '-' :: m1 :: m2 :: '-' :: d1 :: d2 :: _ =>
    if [y1, y2, y3, y4, m1, m2, d1, d2].all (·.isDigit) then
      dropZero m1 m2 ++ "/" ++ dropZero d1 d2 ++ "/" ++ String.mk [y1, y2, y3, y4]
    else "Invalid Date"
  | _ => "Invalid Date"

/-- One rendered memory line of the context block (`server.ts` line 232). -/
def memoryLine (mem : MemoryItem) : String :=
  "- [" ++ mem.type.toStr ++ "] " ++ mem.content ++ " ("
    ++ toLocaleDateString mem.createdAt ++ ")\n"

/-- `buildContextString` (`server.ts` lines 214-239), as a function of the
state snapshot it reads. -/
def buildContextString (s : AgentState) : String :=
  let avatar := s.avatar
  let recentMemories := sliceLast 3 s.memories
  let context := "## Current Avatar State\n"
  let context :=
    match avatar with
    | some a =>
        context ++ "- Name: " ++ a.displayName ++ "\n"
          ++ "- Bio: " ++ (if a.bio = "" then "Not set" else a.bio) ++ "\n"
          ++ "- Tone: " ++ a.tone.toStr ++ "\n"
          ++ "- Expertise: "
          ++ (if a.expertiseTags.length > 0 then String.intercalate ", " a.expertiseTags
              else "None specified") ++ "\n"
    | none => context ++ "- No avatar profile set yet. The user can create one.\n"
  let context := context ++ "\n## Recent Memories\n"
  let context :=
    if recentMemories.length > 0 then
      recentMemories.foldl (fun c mem => c ++ memoryLine mem) context
    else context ++ "- No memories stored yet.\n"
  context

/-- The tone-instruction record of `getSystemPrompt` (`server.ts` lines
246-251), an exhaustive map over the four-value enumeration. -/
def toneInstructions : Tone → String
  | .casual => "Be friendly, relaxed, and approachable. Use conversational language."
  | .professional => "Be formal, precise, and business-like. Maintain a professional demeanor."
  | .playful => "Be fun, energetic, and use humor when appropriate. Keep things light."
  | .technical => "Be detailed, accurate, and use technical terminology. Focus on precision."

/-- Model of the external scheduling collaborator's prompt fragment
(`getSchedulePrompt({date})` of the agents library, not code of this
repository): a pure function of the current date it is given. -/
def getSchedulePrompt (now : String) : String :=
  "Current date and time: " ++ now

/-- `getSystemPrompt` (`server.ts` lines 244-276), as a function of the
state snapshot and the current time (`new Date()`). -/
def getSystemPrompt (s : AgentState) (now : String) : String :=
  let tone := jsOrTone (s.avatar.map (·.tone)) .casual
  "You are Percify Avatar Co-Pilot, an AI assistant that maintains a persistent avatar persona for each user.\n\n## Your Behavior\n1. ALWAYS think in steps: understand user request → inspect avatar + memories → decide actions → respond\n2. Maintain the avatar's tone ("
    ++ tone.toStr ++ ") in ALL responses: " ++ toneInstructions tone
    ++ "\n3. Store memories for recurring preferences and important tasks\n4. When the user wants to set or change their avatar, use the saveAvatarProfile tool\n5. When the user shares preferences or asks you to remember something, use the saveMemory tool\n6. When the user asks for research or information lookup, use the researchWeb tool\n\n## Available Actions\n- update_avatar: Update the user's avatar profile (name, bio, tone, expertise)\n- store_memory: Save important information, preferences, or task notes\n- research: Look up information from web sources\n- chat: Just respond to the user without taking action\n- combo: Perform multiple actions in sequence\n\n## Response Format\nWhen you need to take actions, use the available tools. Always explain what you did after taking actions.\n\n"
    ++ getSchedulePrompt now ++ "\n\n" ++ buildContextString s

/-- The spec's `renderInstruction(state, time)` is `getSystemPrompt` read
on a state snapshot at the current time. -/
def renderInstruction (s : AgentState) (now : String) : String :=
  getSystemPrompt s now

/-- The stored `memories` field as found at startup: a valid ordered
sequence, or anything that is not an array (`Array.isArray` fails). -/
inductive RawMemories where
  | valid (items : List MemoryItem)
  | corrupted
deriving DecidableEq, Repr

/-- The state container as found at startup: absent or not an object
(`!this.state || typeof this.state !== "object"`), or an object with an
optional avatar and a raw memories field. -/
inductive RawState where
  | missing
  | obj (avatar : Option AvatarProfile) (memories : RawMemories)
deriving DecidableEq, Repr

/-- `onStart` (`server.ts` lines 90-110): the two sequential self-heal
checks, a total function (nothing in it can throw). -/
def onStart (r : RawState) : AgentState :=
  let r1 : RawState :=
    match r with
    | .missing => .obj none (.valid [])
    | o => o
  match r1 with
  | .missing => initialAgentState
  | .obj av (.valid ms) => { avatar := av, memories := ms }
  | .obj av .corrupted => { avatar := av, memories := [] }

/-- JavaScript whitespace (the `\s` class), restricted to its ASCII
members, which are the ones the source's inputs contain. -/
def isJsWs (c : Char) : Bool :=
  c = ' ' || c = '\t' || c = '\n' || c = '\r' || c = '\x0b' || c = '\x0c'

/-- Scans past `[^>]*>`: the remainder after the first `>`, if any. -/
def afterGt : List Char → Option (List Char)
  | [] => none
  | c :: rest => if c = '>' then some rest else afterGt rest

/-- Whether the regex `<[^>]+>` matches right after a `<`; on a match, the
remainder after the closing `>`. -/
def tagMatch : List Char → Option (List Char)
  | [] => none
  | c :: rest => if c = '>' then none else afterGt rest

/-- One pass of `.replace(/<[^>]+>/g, " ")` (`server.ts` line 192), with
explicit fuel (one unit per consumed character, so `cs.length` suffices). -/
def stripTagsGo : Nat → List Char → List Char
  | 0, cs => cs
  | _ + 1, [] => []
  | fuel + 1, c :: rest =>
    if c = '<' then
      match tagMatch rest with
      | some after => ' ' :: stripTagsGo fuel after
      | none => c :: stripTagsGo fuel rest
    else c :: stripTagsGo fuel rest

/-- Case-insensitive scan for a literal closing tag; on a match, the
remainder after it (the lazy `[\s\S]*?<\/tag>` of the source's regexes). -/
def findClose (closeTag : List Char) : Nat → List Char → Option (List Char)
  | 0, _ => none
  | _ + 1, [] => none
  | fuel + 1, c :: rest =>
    if (List.take closeTag.length (c :: rest)).map Char.toLower = closeTag then
      some (List.drop closeTag.length (c :: rest))
    else findClose closeTag fuel rest

/-- `.replace(/<tag[^>]*>[\s\S]*?<\/tag>/gi, "")` (`server.ts` lines
190-191 for `script` and `style`): drops each matched element whole. -/
def stripElemGo (tag : List Char) : Nat → List Char → List Char
  | 0, cs => cs
  | _ + 1, [] => []
  | fuel + 1, c :: rest =>
    if c = '<' && (List.take tag.length rest).map Char.toLower = tag then
      match afterGt (List.drop tag.length rest) with
      | some afterOpen =>
        match findClose ('<' :: '/' :: (tag ++ ['>'])) afterOpen.length afterOpen with
        | some afterClose => stripElemGo tag fuel afterClose
        | none => c :: stripElemGo tag fuel rest
      | none => c :: stripElemGo tag fuel rest
    else c :: stripElemGo tag fuel rest

/-- `.replace(/\s+/g, " ")` (`server.ts` line 193): each whitespace run
becomes a single space. -/
def collapseWs : List Char → List Char
  | [] => []
  | [c] => [if isJsWs c then ' ' else c]
  | c1 :: c2 :: rest =>
    if isJsWs c1 && isJsWs c2 then collapseWs (c2 :: rest)
    else (if isJsWs c1 then ' ' else c1) :: collapseWs (c2 :: rest)

/-- `.trim()` over the JavaScript whitespace class. -/
def trimWs (cs : List Char) : List Char :=
  ((cs.dropWhile (isJsWs ·)).reverse.dropWhile (isJsWs ·)).reverse

/-- The snippet extraction of `researchWeb` (`server.ts` lines 189-197):
strip script and style elements, strip remaining tags, collapse
whitespace, trim, keep the first 500 characters and append an ellipsis. -/
def extractSnippet (html : String) : String :=
  let cs := html.toList
  let cs := stripElemGo ("script".toList) cs.length cs
  let cs := stripElemGo ("style".toList) cs.length cs
  let cs := stripTagsGo cs.length cs
  let cs := trimWs (collapseWs cs)
  String.mk (cs.take 500) ++ "..."

/-- The outcome of `await fetch(url)` then `await response.text()`:
either a resolved response with an HTTP status and a body string — note
`fetch` resolves on every HTTP status, 2xx or not — or a thrown error
(network failure, body-read failure), which the source catches. -/
inductive FetchOutcome where
  | success (status : Nat) (body : String)
  | failure
deriving DecidableEq, Repr

/-- The fixed source used by `researchWeb` (`server.ts` line 182). -/
def researchSourceUrl : String := "https://developers.cloudflare.com/agents/"

/-- The canned fallback snippet of the catch branch (`server.ts` line 205),
tagged with the original query. -/
def fallbackSnippet (query : String) : String :=
  "Research on \"" ++ query
    ++ "\" completed. Cloudflare Agents SDK enables building AI-powered applications with persistent state, real-time communication, and tool integration capabilities."

/-- The value `researchWeb` resolves with (`server.ts` line 179). -/
structure ResearchResult where
  query : String
  snippet : String
  sourceUrl : String
deriving DecidableEq, Repr

/-- `researchWeb` (`server.ts` lines 179-209) as a function of the query
and of the fetch outcome.  The source never reads the response status: a
resolved response is snippet-extracted whatever its status, and only a
thrown error reaches the catch branch with the fallback. -/
def researchWeb (query : String) (outcome : FetchOutcome) : ResearchResult :=
  match outcome with
  | .success _status body =>
    { query := query, snippet := extractSnippet body, sourceUrl := researchSourceUrl }
  | .failure =>
    { query := query, snippet := fallbackSnippet query, sourceUrl := researchSourceUrl }

/-- The `z.enum(["task", "preference", "note"])` check of the saveMemory
tool schema (`tools.ts` line 77). -/
def parseMemType (s : String) : Option MemType :=
  if s = "task" then some .task
  else if s = "preference" then some .preference
  else if s = "note" then some .note
  else none

/-- The raw input reaching the saveMemory tool boundary: a type string and
an optionally absent content field. -/
structure RawSaveMemoryInput where
  type : String
  content : Option String
deriving DecidableEq, Repr

/-- The zod schema of the saveMemory tool (`tools.ts` lines 76-81): `type`
must be one of the enumeration, `content` must be present and a string —
any string, the empty one included (`z.string()` has no emptiness check). -/
def parseSaveMemoryInput (r : RawSaveMemoryInput) : Option (MemType × String) :=
  match parseMemType r.type, r.content with
  | some t, some c => some (t, c)
  | _, _ => none

/-- The saveMemory tool at its boundary (`tools.ts` lines 70-102): a
schema failure stops the call before any mutation (`none` result); a
parsed input runs the Store's `saveMemory` and returns its value. -/
def saveMemoryTool (freshId now : String) (r : RawSaveMemoryInput)
    (s : AgentState) : AgentState × Option (List MemoryItem) :=
  match parseSaveMemoryInput r with
  | none => (s, none)
  | some (t, c) =>
    let res := saveMemory freshId now t c s
    (res.fst, some res.snd)

/-! Specification-side definitions, written from the spec's words, to be
compared with the source-side embeddings above. -/

/-- The claim's merge rule for a string field, word for word: the incoming
value if present and non-empty, else the existing stored value if an
avatar exists, else the hard default. -/
def claimedField (incoming : Option String) (existing : Option String)
    (dflt : String) : String :=
  match incoming with
  | some v =>
    if v ≠ "" then v
    else match existing with
      | some e => e
      | none => dflt
  | none =>
    match existing with
    | some e => e
    | none => dflt

/-- The claim's merge rule applied to the tag list, reading "non-empty" as
a non-empty list. -/
def claimedTags (incoming : Option (List String))
    (existing : Option (List String)) : List String :=
  match incoming with
  | some v =>
    if v ≠ [] then v
    else match existing with
      | some e => e
      | none => []
  | none =>
    match existing with
    | some e => e
    | none => []

/-- `upsertProfile` exactly as the claim words it: every field through
{incoming if present-and-non-empty → existing → hard default}, the id
taken from the existing avatar whenever one exists. -/
def claimedUpsert (freshId : String) (p : ProfileInput)
    (cur : Option AvatarProfile) : AvatarProfile :=
  { id :=
      match cur with
      | some a => a.id
      | none => freshId
    displayName := claimedField p.displayName (cur.map (·.displayName)) "Unnamed Avatar"
    bio := claimedField p.bio (cur.map (·.bio)) ""
    tone :=
      match p.tone with
      | some t => t
      | none =>
        match cur with
        | some a => a.tone
        | none => .casual
    expertiseTags := claimedTags p.expertiseTags (cur.map (·.expertiseTags)) }

/-- The first candidate that is present with a non-empty string, else the
default: the fall-through the code actually implements for string fields
(JavaScript `||` skips an empty stored value too). -/
def firstNonEmptyStr (dflt : String) : List (Option String) → String
  | [] => dflt
  | none :: rest => firstNonEmptyStr dflt rest
  | some s :: rest => if s = "" then firstNonEmptyStr dflt rest else s

/-- The amended merge rule: string fields (and the id) fall through every
empty value, present or stored; the tag list is taken whenever the input
carries one, the empty list included. -/
def specUpsert (freshId : String) (p : ProfileInput)
    (cur : Option AvatarProfile) : AvatarProfile :=
  { id := firstNonEmptyStr freshId [cur.map (·.id)]
    displayName := firstNonEmptyStr "Unnamed Avatar" [p.displayName, cur.map (·.displayName)]
    bio := firstNonEmptyStr "" [p.bio, cur.map (·.bio)]
    tone :=
      match p.tone with
      | some t => t
      | none =>
        match cur with
        | some a => a.tone
        | none => .casual
    expertiseTags :=
      match p.expertiseTags with
      | some l => l
      | none =>
        match cur with
        | some a => a.expertiseTags
        | none => [] }

/-- The last `min (k, length)` elements of a list in order, as the spec
words the read window: take `k` from the reversed list, reverse back. -/
def lastWindow (k : Nat) (l : List α) : List α :=
  (l.reverse.take k).reverse

/-- One `appendMemory` call's arguments: the fresh id and timestamp the
source draws inside the call, the type, the content. -/
structure MemCall where
  freshId : String
  now : String
  type : MemType
  content : String
deriving DecidableEq, Repr

/-- The item a call constructs (`server.ts` lines 152-157). -/
def MemCall.item (c : MemCall) : MemoryItem :=
  { id := c.freshId, createdAt := c.now, type := c.type, content := c.content }

/-- The state reached by a sequence of `appendMemory` calls starting from
the initial (empty) state. -/
def applyCalls (calls : List MemCall) : AgentState :=
  calls.foldl (fun s c => (saveMemory c.freshId c.now c.type c.content s).fst)
    initialAgentState

/-- The avatar block of the context, as the spec describes it: name, bio
or "Not set", tone, tags joined by comma or "None specified", or the
explicit no-avatar indicator. -/
def avatarBlockSpec : Option AvatarProfile → String
  | some a =>
    "- Name: " ++ a.displayName ++ "\n- Bio: "
      ++ (if a.bio = "" then "Not set" else a.bio)
      ++ "\n- Tone: " ++ a.tone.toStr ++ "\n- Expertise: "
      ++ (if a.expertiseTags = [] then "None specified"
          else String.intercalate ", " a.expertiseTags) ++ "\n"
  | none => "- No avatar profile set yet. The user can create one.\n"

/-- The concatenation of the rendered lines of a list of memories. -/
def memLines : List MemoryItem → String
  | [] => ""
  | m :: rest => memoryLine m ++ memLines rest

/-- The memory block of the context, as the spec describes it: one
annotated line per rendered memory, or the explicit no-memories
indicator. -/
def memoriesBlockSpec : List MemoryItem → String
  | [] => "- No memories stored yet.\n"
  | m :: rest => memLines (m :: rest)

/-- The tone the prompt resolves, as the spec words it: the avatar's tone
when an avatar exists, the casual default otherwise. -/
def stateTone (s : AgentState) : Tone :=
  match s.avatar with
  | some a => a.tone
  | none => .casual

/-- The instruction text up to the resolved tone's name. -/
def promptIntro : String :=
  "You are Percify Avatar Co-Pilot, an AI assistant that maintains a persistent avatar persona for each user.\n\n## Your Behavior\n1. ALWAYS think in steps: understand user request → inspect avatar + memories → decide actions → respond\n2. Maintain the avatar's tone ("

/-- The instruction text between the tone's name and its instruction. -/
def promptMid : String := ") in ALL responses: "

/-- The claim's concrete memory scenario: `n` sequential appends with
contents `m1..mn` (fresh ids `id1..idn`, one fixed timestamp). -/
def scenarioCalls (n : Nat) : List MemCall :=
  (List.range n).map fun i =>
    { freshId := "id" ++ toString (i + 1), now := "2026-01-01T00:00:00.000Z",
      type := .note, content := "m" ++ toString (i + 1) }

/-- A stored avatar with one expertise tag, for concrete inputs. -/
def cexAvatarTags : AvatarProfile :=
  { id := "a1", displayName := "Alex", bio := "", tone := .casual, expertiseTags := ["ai"] }

/-- A stored avatar whose displayName is the empty string. -/
def cexAvatarNoName : AvatarProfile :=
  { id := "a1", displayName := "", bio := "b", tone := .casual, expertiseTags := [] }

/-- A stored avatar whose id is the empty string. -/
def cexAvatarNoId : AvatarProfile :=
  { id := "", displayName := "Alex", bio := "b", tone := .casual, expertiseTags := [] }

/-- A profile input that explicitly carries the empty tag list. -/
def cexInputEmptyTags : ProfileInput :=
  { displayName := none, bio := none, tone := none, expertiseTags := some [] }

/-- The scenario input carrying only a display name. -/
def inputAlex : ProfileInput :=
  { displayName := some "Alex", bio := none, tone := none, expertiseTags := none }

/-- The scenario input carrying only a tone. -/
def inputProfessional : ProfileInput :=
  { displayName := none, bio := none, tone := some .professional, expertiseTags := none }

/-- A state holding only the given avatar. -/
def stateOf (a : AvatarProfile) : AgentState := { avatar := some a, memories := [] }

/-- A demonstration state holding `n` memories, for concrete witnesses. -/
def demoState (n : Nat) : AgentState :=
  { avatar := none
    memories :=
      (List.range n).map fun i =>
        { id := "i" ++ toString (i + 1), createdAt := "2026-01-01T00:00:00.000Z",
          type := .note, content := "c" ++ toString (i + 1) } }

/-- The instruction text between the tone instruction and the schedule
fragment. -/
def promptTail : String :=
  "\n3. Store memories for recurring preferences and important tasks\n4. When the user wants to set or change their avatar, use the saveAvatarProfile tool\n5. When the user shares preferences or asks you to remember something, use the saveMemory tool\n6. When the user asks for research or information lookup, use the researchWeb tool\n\n## Available Actions\n- update_avatar: Update the user's avatar profile (name, bio, tone, expertise)\n- store_memory: Save important information, preferences, or task notes\n- research: Look up information from web sources\n- chat: Just respond to the user without taking action\n- combo: Perform multiple actions in sequence\n\n## Response Format\nWhen you need to take actions, use the available tools. Always explain what you did after taking actions.\n\n"

/-! Helper lemmas. -/

theorem sliceLast_of_le {α : Type _} {l : List α} {k : Nat} (h : l.length ≤ k) :
    sliceLast k l = l := by
  simp [sliceLast, Nat.sub_eq_zero_of_le h]

theorem length_sliceLast {α : Type _} (k : Nat) (l : List α) :
    (sliceLast k l).length = min k l.length := by
  simp only [sliceLast, List.length_drop]
  omega

theorem sliceLast_eq_lastWindow {α : Type _} (k : Nat) (l : List α) :
    sliceLast k l = lastWindow k l := by
  simp [sliceLast, lastWindow, List.take_reverse]

theorem sliceLast_suffix {α : Type _} (k : Nat) (l : List α) :
    List.IsSuffix (sliceLast k l) l :=
  List.drop_suffix _ _

theorem sliceLast_append_sliceLast {α : Type _} (n : Nat) (xs ys : List α) :
    sliceLast n (sliceLast n xs ++ ys) = sliceLast n (xs ++ ys) := by
  have h : n - ys.length ≤ n := Nat.sub_le _ _
  simp only [sliceLast_eq_lastWindow, lastWindow, List.reverse_append,
    List.reverse_reverse, List.take_append_eq_append_take, List.take_take,
    List.length_reverse, Nat.min_eq_left h]

theorem saveMemory_fst_memories (freshId now : String) (t : MemType)
    (content : String) (s : AgentState) :
    (saveMemory freshId now t content s).fst.memories
      = sliceLast 50 (s.memories
          ++ [{ id := freshId, createdAt := now, type := t, content := content }]) := by
  simp only [saveMemory]
  split_ifs with h
  · rfl
  · exact (sliceLast_of_le (Nat.le_of_not_lt h)).symm

theorem saveMemory_snd (freshId now : String) (t : MemType)
    (content : String) (s : AgentState) :
    (saveMemory freshId now t content s).snd
      = sliceLast 5 (saveMemory freshId now t content s).fst.memories := rfl

theorem foldl_saveMemory_memories (calls : List MemCall) :
    ∀ (s : AgentState) (base : List MemoryItem), s.memories = sliceLast 50 base →
      (calls.foldl (fun s c => (saveMemory c.freshId c.now c.type c.content s).fst)
          s).memories
        = sliceLast 50 (base ++ calls.map MemCall.item) := by
  induction calls with
  | nil => intro s base h; simpa using h
  | cons c rest ih =>
    intro s base h
    simp only [List.foldl_cons, List.map_cons]
    rw [ih _ (base ++ [c.item])
        (by rw [saveMemory_fst_memories, h, sliceLast_append_sliceLast]; rfl),
      List.append_assoc]
    rfl

theorem parseMemType_toStr (t : MemType) : parseMemType t.toStr = some t := by
  cases t <;> rfl

theorem jsOrStr_one (b : Option String) (d : String) :
    jsOrStr b d = firstNonEmptyStr d [b] := by
  cases b with
  | none => rfl
  | some s => simp [jsOrStr, firstNonEmptyStr]

theorem jsOrStr_two (a b : Option String) (d : String) :
    jsOrStr a (jsOrStr b d) = firstNonEmptyStr d [a, b] := by
  cases a with
  | none => exact jsOrStr_one b d
  | some s =>
    by_cases h : s = ""
    · simp only [jsOrStr, firstNonEmptyStr, if_pos h]
      exact jsOrStr_one b d
    · simp only [jsOrStr, firstNonEmptyStr, if_neg h]

theorem firstNonEmptyStr_cons (a : Option String) (b : List (Option String))
    (d : String) :
    firstNonEmptyStr (firstNonEmptyStr d b) [a] = firstNonEmptyStr d (a :: b) := by
  cases a with
  | none => simp [firstNonEmptyStr]
  | some s => by_cases h : s = "" <;> simp [firstNonEmptyStr, h]

theorem mergeAvatar_eq_specUpsert (freshId : String) (p : ProfileInput)
    (cur : Option AvatarProfile) :
    mergeAvatar freshId p cur = specUpsert freshId p cur := by
  obtain ⟨pd, pb, pt, pe⟩ := p
  cases cur with
  | none =>
    cases pt <;> cases pe <;>
      simp [mergeAvatar, specUpsert, jsOrTone, jsOrList, jsOrStr_one,
        firstNonEmptyStr_cons]
  | some a =>
    cases pt <;> cases pe <;>
      simp [mergeAvatar, specUpsert, jsOrTone, jsOrList, jsOrStr_one,
        firstNonEmptyStr_cons]

theorem foldl_memoryLine (l : List MemoryItem) (c : String) :
    l.foldl (fun acc mem => acc ++ memoryLine mem) c = c ++ memLines l := by
  induction l generalizing c with
  | nil => simp [memLines]
  | cons m rest ih => simp [memLines, ih, String.append_assoc]

/-! The claims. -/

/-- C1, counterexample: the merge rule as claimed (`claimedUpsert`,
incoming value whenever present and non-empty, else the existing value
whenever an avatar exists, else the default; id always kept from an
existing avatar) differs from the code on three concrete inputs: an
explicitly empty incoming tag list wipes stored tags instead of keeping
them; an existing empty displayName falls through to the hard default
instead of being kept; an existing empty id is regenerated instead of
preserved. -/
theorem upsertProfile_claim_false :
    (saveAvatarProfile "fresh" cexInputEmptyTags (stateOf cexAvatarTags)).fst
        ≠ claimedUpsert "fresh" cexInputEmptyTags (some cexAvatarTags)
      ∧ (saveAvatarProfile "fresh" ProfileInput.empty (stateOf cexAvatarNoName)).fst
        ≠ claimedUpsert "fresh" ProfileInput.empty (some cexAvatarNoName)
      ∧ (saveAvatarProfile "fresh" ProfileInput.empty (stateOf cexAvatarNoId)).fst.id
        ≠ (claimedUpsert "fresh" ProfileInput.empty (some cexAvatarNoId)).id := by
  refine ⟨by decide, by decide, by decide⟩

/-- C1, amended: `upsertProfile` is total, always returns a fully
populated profile, and merges field by field with the fall-through the
code implements (`specUpsert`): a string field (and the id) takes the
first non-empty value among {incoming, existing}, else its hard default;
the tag list takes the incoming list whenever one is present (the empty
list included), else the existing one, else the empty default.  The
claim's concrete scenario holds: from the empty state,
`upsertProfile {displayName := Alex}` then `upsertProfile
{tone := professional}` keeps the first id and the merged fields. -/
theorem upsertProfile_merge :
    (∀ (freshId : String) (p : ProfileInput) (s : AgentState),
        saveAvatarProfile freshId p s
          = (specUpsert freshId p s.avatar,
             { s with avatar := some (specUpsert freshId p s.avatar) }))
      ∧ (saveAvatarProfile "g1" inputAlex initialAgentState).fst
        = { id := "g1", displayName := "Alex", bio := "", tone := .casual,
            expertiseTags := [] }
      ∧ (saveAvatarProfile "g2" inputProfessional
            (saveAvatarProfile "g1" inputAlex initialAgentState).snd).fst
        = { id := "g1", displayName := "Alex", bio := "", tone := .professional,
            expertiseTags := [] } := by
  refine ⟨fun freshId p s => ?_, by decide, by decide⟩
  simp only [saveAvatarProfile, mergeAvatar_eq_specUpsert]

/-- C5: `renderInstruction` is a pure function of the state snapshot and
the current time: two invocations with equal inputs give byte-identical
output.  In the source the only inputs beyond the snapshot are
`new Date()` (the time argument here) and the runtime's fixed locale,
folded into the deterministic date rendering; there is no randomness. -/
theorem renderInstruction_pure (s₁ s₂ : AgentState) (now₁ now₂ : String)
    (hs : s₁ = s₂) (hn : now₁ = now₂) :
    renderInstruction s₁ now₁ = renderInstruction s₂ now₂ := by
  rw [hs, hn]

/-- C5, witness: the determinism theorem applied at a concrete snapshot
and time. -/
theorem renderInstruction_pure_witness :
    renderInstruction initialAgentState "2026-01-01T00:00:00.000Z"
      = renderInstruction initialAgentState "2026-01-01T00:00:00.000Z" :=
  renderInstruction_pure initialAgentState initialAgentState
    "2026-01-01T00:00:00.000Z" "2026-01-01T00:00:00.000Z" rfl rfl

/-- C6: `snapshot()` returns the stored avatar unchanged together with at
most 5 memories that form an in-order suffix of the full stored
sequence; on the empty state it returns the absence marker and no
memories. -/
theorem snapshot_window (s : AgentState) :
    (getAvatarState s).avatar = s.avatar
      ∧ (getAvatarState s).memories.length ≤ 5
      ∧ List.IsSuffix (getAvatarState s).memories s.memories
      ∧ getAvatarState initialAgentState = initialAgentState := by
  refine ⟨rfl, ?_, sliceLast_suffix 5 s.memories, rfl⟩
  simp only [getAvatarState, length_sliceLast]
  omega

/-- C9: initialization self-heal.  `onStart` is a total function (nothing
in either check can throw): an absent or non-object state container is
reset to the empty default; a present container whose `memories` is not
an array keeps its avatar and has only `memories` reset to empty; a
well-formed container is left unchanged. -/
theorem onStart_heals :
    onStart RawState.missing = initialAgentState
      ∧ (∀ av : Option AvatarProfile,
          onStart (RawState.obj av RawMemories.corrupted)
            = { avatar := av, memories := [] })
      ∧ (∀ (av : Option AvatarProfile) (ms : List MemoryItem),
          onStart (RawState.obj av (RawMemories.valid ms))
            = { avatar := av, memories := ms }) :=
  ⟨rfl, fun _ => rfl, fun _ _ => rfl⟩

/-- C10, counterexample: a non-2xx response is not substituted by the
fallback.  On an HTTP 500 whose body is an error page, the code
snippet-extracts the error body (the source never reads the response
status), so the returned snippet is not the fixed fallback text the
claim requires for a non-2xx outcome. -/
theorem researchWeb_non2xx_not_fallback :
    (researchWeb "agents"
        (FetchOutcome.success 500 "Internal Server Error")).snippet
      = "Internal Server Error..."
      ∧ (researchWeb "agents"
          (FetchOutcome.success 500 "Internal Server Error")).snippet
        ≠ fallbackSnippet "agents" := by
  refine ⟨by decide, by decide⟩

/-- C10, amended: `researchWeb` never propagates a failure and always
returns the input query with the fixed source identifier; a thrown fetch
or body-read error (the only failures the try/catch sees) is substituted
by the fixed fallback snippet tagged with the query; a resolved response
— whatever its HTTP status, non-2xx included — has its body
snippet-extracted instead. -/
theorem researchWeb_never_propagates (q : String) (outcome : FetchOutcome)
    (st : Nat) (body : String) :
    (researchWeb q outcome).query = q
      ∧ (researchWeb q outcome).sourceUrl = researchSourceUrl
      ∧ (researchWeb q FetchOutcome.failure).snippet = fallbackSnippet q
      ∧ (researchWeb q (FetchOutcome.success st body)).snippet
        = extractSnippet body := by
  refine ⟨?_, ?_, rfl, rfl⟩ <;> cases outcome <;> rfl

set_option maxRecDepth 8000 in
/-- C2: capacity invariant of the memory log.  For every sequence of
`appendMemory` calls from the empty state the stored sequence is exactly
the last-50 window of everything ever appended, in insertion order (so
its length never exceeds 50; a shorter history is stored whole); since
the calls list is universally quantified, the invariant holds after
every call of any longer sequence.  The claim's concrete scenario holds:
after appending `m1..m52` the store holds exactly `m3..m52` in order and
the 52nd call returned `m48..m52`. -/
theorem appendMemory_capacity :
    (∀ calls : List MemCall,
        (applyCalls calls).memories = sliceLast 50 (calls.map MemCall.item)
          ∧ (applyCalls calls).memories.length ≤ 50)
      ∧ (applyCalls (scenarioCalls 52)).memories.map (·.content)
        = (List.range 50).map (fun i => "m" ++ toString (i + 3))
      ∧ ((saveMemory "id52" "2026-01-01T00:00:00.000Z" .note "m52"
            (applyCalls (scenarioCalls 51))).snd.map (·.content))
        = ["m48", "m49", "m50", "m51", "m52"] := by
  refine ⟨fun calls => ⟨?_, ?_⟩, by decide, by decide⟩
  · simpa using foldl_saveMemory_memories calls initialAgentState [] rfl
  · have h := foldl_saveMemory_memories calls initialAgentState [] rfl
    simp only [List.nil_append] at h
    simp only [applyCalls, h, length_sliceLast]
    omega

/-- C3: the value `appendMemory` returns is the last `min (5, length)`
items of the post-eviction stored sequence, in insertion order — never
the full sequence once more than 5 items are stored. -/
theorem appendMemory_returns_window (freshId now : String) (t : MemType)
    (content : String) (s : AgentState) :
    (saveMemory freshId now t content s).snd
        = lastWindow 5 (saveMemory freshId now t content s).fst.memories
      ∧ (saveMemory freshId now t content s).snd.length
        = min 5 (saveMemory freshId now t content s).fst.memories.length
      ∧ (5 < (saveMemory freshId now t content s).fst.memories.length →
          (saveMemory freshId now t content s).snd
            ≠ (saveMemory freshId now t content s).fst.memories) := by
  refine ⟨?_, ?_, fun hlen heq => ?_⟩
  · rw [saveMemory_snd, sliceLast_eq_lastWindow]
  · rw [saveMemory_snd, length_sliceLast]
  · have h := congrArg List.length heq
    rw [saveMemory_snd, length_sliceLast] at h
    omega

/-- C3, witness: the window theorem applied to a state already holding 6
memories, where the returned window is a proper suffix. -/
theorem appendMemory_returns_window_witness :
    (saveMemory "i7" "2026-01-01T00:00:00.000Z" .note "c7" (demoState 6)).snd
      ≠ (saveMemory "i7" "2026-01-01T00:00:00.000Z" .note "c7"
          (demoState 6)).fst.memories :=
  (appendMemory_returns_window "i7" "2026-01-01T00:00:00.000Z" .note "c7"
    (demoState 6)).2.2 (by decide)

/-- C4, counterexample: blank content is not rejected at the tool
boundary.  The saveMemory tool schema checks only that `content` is a
string, so a call with empty content reaches the Store, mutates it, and
an item with empty content is stored. -/
theorem saveMemoryTool_blank_stored :
    ((saveMemoryTool "id1" "2026-01-01T00:00:00.000Z"
          { type := "note", content := some "" } initialAgentState).fst.memories.map
        (·.content)) = [""]
      ∧ (saveMemoryTool "id1" "2026-01-01T00:00:00.000Z"
          { type := "note", content := some "" } initialAgentState).fst
        ≠ initialAgentState := by
  refine ⟨by decide, by decide⟩

/-- C4, amended: the tool boundary rejects inputs its schema refuses —
a type outside the enumeration, or an absent content field — leaving the
Store untouched; but it does not reject blank content: any present
string content, the empty one included, passes validation together with
a valid type and the Store appends an item carrying it. -/
theorem saveMemoryTool_boundary (freshId now : String) (s : AgentState) :
    (∀ r : RawSaveMemoryInput, parseSaveMemoryInput r = none →
        saveMemoryTool freshId now r s = (s, none))
      ∧ ∀ (t : MemType) (c : String),
          saveMemoryTool freshId now { type := t.toStr, content := some c } s
            = ((saveMemory freshId now t c s).fst,
               some (saveMemory freshId now t c s).snd) := by
  constructor
  · intro r h
    simp [saveMemoryTool, h]
  · intro t c
    simp [saveMemoryTool, parseSaveMemoryInput, parseMemType_toStr]

/-- C4, witness: the boundary theorem applied concretely — a rejected
unknown type leaves the empty state untouched, and a valid type with
blank content goes through to the Store. -/
theorem saveMemoryTool_boundary_witness :
    saveMemoryTool "w1" "2026-01-01T00:00:00.000Z"
        { type := "bogus", content := some "x" } initialAgentState
      = (initialAgentState, none)
      ∧ saveMemoryTool "w1" "2026-01-01T00:00:00.000Z"
          { type := "note", content := some "" } initialAgentState
        = ((saveMemory "w1" "2026-01-01T00:00:00.000Z" .note "" initialAgentState).fst,
           some (saveMemory "w1" "2026-01-01T00:00:00.000Z" .note ""
             initialAgentState).snd) :=
  ⟨(saveMemoryTool_boundary "w1" "2026-01-01T00:00:00.000Z" initialAgentState).1
      { type := "bogus", content := some "x" } (by decide),
   (saveMemoryTool_boundary "w1" "2026-01-01T00:00:00.000Z" initialAgentState).2
      MemType.note ""⟩

theorem memBlock_eq (pre : String) (l : List MemoryItem) :
    (if l.length > 0 then l.foldl (fun c mem => c ++ memoryLine mem) pre
     else pre ++ "- No memories stored yet.\n") = pre ++ memoriesBlockSpec l := by
  cases l with
  | nil => simp [memoriesBlockSpec]
  | cons m rest =>
    simp [memoriesBlockSpec, foldl_memoryLine, memLines, String.append_assoc]

/-- C7: the rendered context is the avatar block (name, bio or "Not set",
tone, tags joined by comma or "None specified", or the explicit no-avatar
indicator) followed by the block of exactly the 3 most-recent memories —
an in-order suffix of length `min 3 count`, not 5 — each line annotated
with its type tag and a date derived from `createdAt`, or the explicit
no-memories indicator when none exist. -/
theorem contextAssembler_renders (s : AgentState) :
    buildContextString s
        = "## Current Avatar State\n" ++ avatarBlockSpec s.avatar
          ++ "\n## Recent Memories\n" ++ memoriesBlockSpec (sliceLast 3 s.memories)
      ∧ (sliceLast 3 s.memories).length = min 3 s.memories.length
      ∧ List.IsSuffix (sliceLast 3 s.memories) s.memories := by
  refine ⟨?_, length_sliceLast 3 s.memories, sliceLast_suffix 3 s.memories⟩
  obtain ⟨av, mems⟩ := s
  simp only [buildContextString]
  rw [memBlock_eq]
  cases av with
  | none => simp only [avatarBlockSpec]
  | some a =>
    cases h : a.expertiseTags with
    | nil =>
      simp only [avatarBlockSpec, h]
      simp [String.append_assoc]
      rw [← String.append_assoc "## Current Avatar State\n" "- Name: "]
      simp
    | cons tag rest =>
      simp only [avatarBlockSpec, h]
      simp [String.append_assoc]
      rw [← String.append_assoc "## Current Avatar State\n" "- Name: "]
      simp

/-- C8: the instruction text contains exactly one tone-instruction slot,
filled by the total mapping `toneInstructions` applied to the resolved
tone — the avatar's tone when an avatar exists, the casual default
otherwise — concatenated into the outer instruction separately from the
context-rendering path (`buildContextString` enters as its own
component); the four instruction strings are pairwise distinct. -/
theorem systemPrompt_tone :
    (∀ (s : AgentState) (now : String),
        getSystemPrompt s now
          = promptIntro ++ (stateTone s).toStr ++ promptMid
            ++ toneInstructions (stateTone s) ++ promptTail
            ++ getSchedulePrompt now ++ "\n\n" ++ buildContextString s)
      ∧ (∀ (a : AvatarProfile) (mems : List MemoryItem),
          stateTone { avatar := some a, memories := mems } = a.tone)
      ∧ (∀ mems : List MemoryItem,
          stateTone { avatar := none, memories := mems } = Tone.casual)
      ∧ List.Pairwise (· ≠ ·)
          ([Tone.casual, .professional, .playful, .technical].map toneInstructions) := by
  refine ⟨fun s now => ?_, fun a mems => rfl, fun mems => rfl, by decide⟩
  obtain ⟨av, mems⟩ := s
  cases av <;> rfl

end Percify
